import Mathlib

set_option maxRecDepth 4000

/-!
Verification development for the configo configuration library.

The Go sources are shallowly embedded: each Go function relevant to the
properties under study is translated into an executable Lean definition,
and the properties are stated and proved (or refuted) about those
definitions.  Machine integers are modelled as `Int` (the values involved
never overflow), Go `interface{}` values by the inductive `GoValue`,
`reflect.Kind` by `GoKind`, fallible functions by `Except`/`Option`, and
a Go panic (nil-pointer dereference) by `Option.none`.
-/

/-! ### Models of the Go standard library helpers used by the sources -/

/-- Model of `strconv.ParseBool`: accepts exactly the literals listed in the
Go documentation. -/
def parseGoBool (s : String) : Option Bool :=
  if s = "1" ∨ s = "t" ∨ s = "T" ∨ s = "true" ∨ s = "TRUE" ∨ s = "True" then some true
  else if s = "0" ∨ s = "f" ∨ s = "F" ∨ s = "false" ∨ s = "FALSE" ∨ s = "False" then some false
  else none

def digitsToNatAux : List Char → Nat → Option Nat
  | [], acc => some acc
  | c :: rest, acc =>
    if c.isDigit then digitsToNatAux rest (acc * 10 + (c.toNat - 48)) else none

/-- Interpret a non-empty all-decimal-digit character list as a `Nat`. -/
def digitsToNat? : List Char → Option Nat
  | [] => none
  | cs => digitsToNatAux cs 0

/-- Model of `strconv.ParseInt(s, 10, 64)` (and of `strconv.Atoi` on a 64-bit
platform): an optional sign followed by decimal digits, with the int64 range
check.  Digit-separator underscores are rejected, as they are by Go for a
fixed base. -/
def parseGoInt64 (s : String) : Option Int :=
  match s.data with
  | [] => none
  | c :: rest =>
    let signedDigits : Bool × List Char :=
      if c = '-' then (true, rest) else if c = '+' then (false, rest) else (false, c :: rest)
    match digitsToNat? signedDigits.2 with
    | none => none
    | some n =>
      if signedDigits.1 then
        if n ≤ 2 ^ 63 then some (-(n : Int)) else none
      else
        if n ≤ 2 ^ 63 - 1 then some (n : Int) else none

def isDigitList (cs : List Char) : Bool := !cs.isEmpty && cs.all (·.isDigit)

/-- Valid mantissa of a decimal float literal: `digits`, `digits.digits`,
`digits.` or `.digits`. -/
def validFloatMantissa (cs : List Char) : Bool :=
  match cs.splitOn '.' with
  | [a] => isDigitList a
  | [a, b] => a.all (·.isDigit) && b.all (·.isDigit) && (!a.isEmpty || !b.isEmpty)
  | _ => false

/-- Valid exponent part (after the `e`/`E`): optional sign then digits. -/
def validFloatExponent (cs : List Char) : Bool :=
  match cs with
  | [] => false
  | c :: rest =>
    if c = '+' ∨ c = '-' then isDigitList rest else isDigitList (c :: rest)

/-- Split a character list at the first `e`/`E`, if any. -/
def splitAtExponent (cs : List Char) : List Char × Option (List Char) :=
  match cs.span (fun c => !(c = 'e' ∨ c = 'E')) with
  | (m, []) => (m, none)
  | (m, _ :: rest) => (m, some rest)

/-- Model of the syntactic validity of `strconv.ParseFloat(s, 64)`, restricted
to decimal and inf/nan forms (hexadecimal floats and digit-separator
underscores are not modelled; no claim depends on them).  Since floating-point
arithmetic is not reasoned about, a successfully parsed float is represented
by its source literal. -/
def parseGoFloat (s : String) : Option String :=
  match s.data with
  | [] => none
  | c :: rest =>
    let body : List Char := if c = '+' ∨ c = '-' then rest else c :: rest
    let lower := String.mk (body.map Char.toLower)
    if lower = "inf" ∨ lower = "infinity" ∨ lower = "nan" then some s
    else
      let me := splitAtExponent body
      if validFloatMantissa me.1 &&
          (match me.2 with
           | none => true
           | some ecs => validFloatExponent ecs) then
        some s
      else none

/-- Model of `strings.ToUpper` (character-wise upper-casing; the sources only
ever pass ASCII names through it). -/
def goToUpper (s : String) : String := String.mk (s.data.map Char.toUpper)

/-! ### Go data values and kinds -/

/-- The subset of `reflect.Kind` that the sources distinguish. -/
inductive GoKind where
  | string
  | int
  | int32
  | int64
  | bool
  | float32
  | float64
  | slice
  | struct_
  | other (name : String)
deriving DecidableEq, Repr

/-- The `String()` rendering of a `reflect.Kind`, used in error messages. -/
def GoKind.kindName : GoKind → String
  | .string => "string"
  | .int => "int"
  | .int32 => "int32"
  | .int64 => "int64"
  | .bool => "bool"
  | .float32 => "float32"
  | .float64 => "float64"
  | .slice => "slice"
  | .struct_ => "struct"
  | .other n => n

/-- Model of the Go `interface{}` values that flow through the sources:
`nil`, scalars and the slice shapes produced by default-value coercion.
A `float64` is carried as its source literal. -/
inductive GoValue where
  | nilV
  | strV (s : String)
  | intV (n : Int)
  | boolV (b : Bool)
  | floatV (lit : String)
  | sliceStrV (xs : List String)
  | sliceIntV (xs : List Int)
  | sliceFloatV (xs : List String)
  | sliceBoolV (xs : List Bool)
deriving DecidableEq, Repr

/-- The `%T` rendering of the dynamic type of a `GoValue`, used in error
messages (`<nil>` for a nil `interface{}`). -/
def GoValue.typeName : GoValue → String
  | .nilV => "<nil>"
  | .strV _ => "string"
  | .intV _ => "int64"
  | .boolV _ => "bool"
  | .floatV _ => "float64"
  | .sliceStrV _ => "[]string"
  | .sliceIntV _ => "[]int"
  | .sliceFloatV _ => "[]float64"
  | .sliceBoolV _ => "[]bool"

/-! ### The schema-tree node of `internal/parser` (the `GetEnv` era)

Embeds the `ConfigNode` with the env-override logic: fields `FieldName`,
`Description`, `EnvName`, `Children`, `Parent`, `Level`,
`ConfigDescription`.  The `Parent` back-pointer is modelled as an optional
upward snapshot of the ancestor chain; the `ConfigNode` back-reference
inside `ConfigDescription` is unused by every function studied and is
omitted. -/

namespace ParserNode

structure NodeDefault where
  IsExist : Bool
  Value : GoValue
deriving DecidableEq, Repr

structure NodeConfigDescription where
  ValueType : GoKind
  Default : NodeDefault
deriving DecidableEq, Repr

inductive ConfigNode where
  | mk
      (FieldName : String)
      (Description : String)
      (EnvName : String)
      (Children : List ConfigNode)
      (Parent : Option ConfigNode)
      (Level : Int)
      (ConfigDescription : Option NodeConfigDescription)

def ConfigNode.FieldName : ConfigNode → String
  | .mk f _ _ _ _ _ _ => f

def ConfigNode.Description : ConfigNode → String
  | .mk _ d _ _ _ _ _ => d

def ConfigNode.EnvName : ConfigNode → String
  | .mk _ _ e _ _ _ _ => e

def ConfigNode.Children : ConfigNode → List ConfigNode
  | .mk _ _ _ c _ _ _ => c

def ConfigNode.Parent : ConfigNode → Option ConfigNode
  | .mk _ _ _ _ p _ _ => p

def ConfigNode.Level : ConfigNode → Int
  | .mk _ _ _ _ _ l _ => l

def ConfigNode.ConfigDescription : ConfigNode → Option NodeConfigDescription
  | .mk _ _ _ _ _ _ cd => cd

/-- Embeds `func (r *ConfigNode) isRootNode() bool { return r.Parent == nil }` -/
def ConfigNode.isRootNode (r : ConfigNode) : Bool := r.Parent.isNone

/-- The loop body of `GetAllParentNodes`: starting from a non-nil `current`,
collect nodes while `!current.isRootNode()`, advancing through `Parent`.
Collection order is innermost-first, as in the Go loop. -/
def walkAncestors : ConfigNode → List ConfigNode
  | .mk _ _ _ _ none _ _ =>
    -- `current.isRootNode()` holds: the loop stops without collecting
    []
  | .mk f d e ch (some p) lv cd => ConfigNode.mk f d e ch (some p) lv cd :: walkAncestors p

/-- Embeds `func (r *ConfigNode) GetAllParentNodes() []*ConfigNode`.
When `r.Parent` is nil the loop condition evaluates `nil.isRootNode()`,
which dereferences a nil pointer and panics; that panic is modelled as
`none`. -/
def ConfigNode.GetAllParentNodes (r : ConfigNode) : Option (List ConfigNode) :=
  match r.Parent with
  | none => none
  | some c => some (walkAncestors c).reverse

/-- The fragment appended for one ancestor inside the `GetEnv` loop:
its `EnvName` if non-empty, otherwise its `FieldName`. -/
def envPathPart (node : ConfigNode) : String :=
  if node.EnvName ≠ "" then node.EnvName else node.FieldName

/-- The `for _, node := range r.GetAllParentNodes()` loop of `GetEnv`.
The loop body re-checks `r.EnvName == "-"` (the receiver, not the loop
variable) and returns `("", false)` if it holds; that early return is
modelled with `Except.error`. -/
def collectPathParts (rEnvName : String) : List ConfigNode → Except (String × Bool) (List String)
  | [] => .ok []
  | node :: rest =>
    if rEnvName = "-" then .error ("", false)
    else
      match collectPathParts rEnvName rest with
      | .error e => .error e
      | .ok parts => .ok (envPathPart node :: parts)

/-- Embeds `func (r *ConfigNode) GetEnv() (env string, exist bool)`.  A panic from
`GetAllParentNodes` propagates as `none`. -/
def ConfigNode.GetEnv (r : ConfigNode) : Option (String × Bool) :=
  if r.EnvName = "-" then some ("", false)
  else if r.EnvName ≠ "" then some (goToUpper r.EnvName, true)
  else
    match r.GetAllParentNodes with
    | none => none
    | some nodes =>
      match collectPathParts r.EnvName nodes with
      | .error res => some res
      | .ok pathParts =>
        some (goToUpper (String.intercalate "_" (pathParts ++ [r.FieldName])), true)

/-- Embeds `func NewRootNode() *ConfigNode` -/
def NewRootNode : ConfigNode := .mk "root" "root node" "" [] none 0 none

/-- Embeds `func NewConfigNode(fieldName string, description string) *ConfigNode` -/
def NewConfigNode (fieldName description : String) : ConfigNode :=
  .mk fieldName description "" [] none 0 none

def ConfigNode.withChildren : ConfigNode → List ConfigNode → ConfigNode
  | .mk f d e _ p l cd, ch => .mk f d e ch p l cd

def ConfigNode.withParent : ConfigNode → Option ConfigNode → ConfigNode
  | .mk f d e ch _ l cd, p => .mk f d e ch p l cd

def ConfigNode.withLevel : ConfigNode → Int → ConfigNode
  | .mk f d e ch p _ cd, l => .mk f d e ch p l cd

def ConfigNode.withConfigDescription : ConfigNode → Option NodeConfigDescription → ConfigNode
  | .mk f d e ch p l _, cd => .mk f d e ch p l cd

/-- Embeds `func (r *ConfigNode) AddChildNode(node *ConfigNode) error`.  On success
the updated receiver is returned (Go mutates it in place). -/
def ConfigNode.AddChildNode (r node : ConfigNode) : Except String ConfigNode :=
  if r.ConfigDescription.isSome then
    .error ("item in node != nil. adding children node is not possible. name: " ++ node.FieldName)
  else
    let child := (node.withParent (some r)).withLevel (r.Level + 1)
    .ok (r.withChildren (r.Children ++ [child]))

/-- Embeds `func (r *ConfigNode) SetConfigDescription(ValueType reflect.Kind, isDefaultExist bool, defaultValue interface{}) error`. -/
def ConfigNode.SetConfigDescription (r : ConfigNode) (ValueType : GoKind)
    (isDefaultExist : Bool) (defaultValue : GoValue) : Except String ConfigNode :=
  if r.Children.length > 0 then
    .error ("children in node != 0. setting item to node is not possible, node: " ++ r.FieldName)
  else
    .ok (r.withConfigDescription (some ⟨ValueType, ⟨isDefaultExist, defaultValue⟩⟩))

end ParserNode

/-! ### The schema builder of `internal/parser/parser.go`

Embeds `ParseConfigStruct` / `parseNode` / `parseDescription` (the variant
whose node carries `IsArrayOfStructs` and whose `ConfigDescription` carries
`IsArray`), together with the declarative view of the reflected input type:
a `GoField` mirrors one `reflect.StructField` (name, `PkgPath`, the
`mapstructure`/`desc`/`env`/`default` tags, and the field type). -/

namespace SchemaBuilder

mutual
inductive GoType where
  | string
  | int
  | int32
  | int64
  | bool
  | float32
  | float64
  | slice (elem : GoType)
  | struct_ (fields : List GoField)
  | other (kindName : String)
inductive GoField where
  | mk
      (name : String)
      (pkgPath : String)
      (mapstructureTag : Option String)
      (descTag : String)
      (envTag : Option String)
      (defaultTag : Option String)
      (typ : GoType)
end

def GoField.name : GoField → String
  | .mk n _ _ _ _ _ _ => n

def GoField.pkgPath : GoField → String
  | .mk _ p _ _ _ _ _ => p

def GoField.mapstructureTag : GoField → Option String
  | .mk _ _ ms _ _ _ _ => ms

def GoField.descTag : GoField → String
  | .mk _ _ _ d _ _ _ => d

def GoField.envTag : GoField → Option String
  | .mk _ _ _ _ e _ _ => e

def GoField.defaultTag : GoField → Option String
  | .mk _ _ _ _ _ df _ => df

def GoField.typ : GoField → GoType
  | .mk _ _ _ _ _ _ t => t

/-- Embeds `reflect.Type.Kind()` of a modelled type. -/
def GoType.kind : GoType → GoKind
  | .string => .string
  | .int => .int
  | .int32 => .int32
  | .int64 => .int64
  | .bool => .bool
  | .float32 => .float32
  | .float64 => .float64
  | .slice _ => .slice
  | .struct_ _ => .struct_
  | .other n => .other n

/-- Model of `strings.Split(s, ",")`. -/
def goSplitComma (s : String) : List String :=
  (s.data.splitOn ',').map String.mk

structure BDefault where
  IsExist : Bool
  Value : GoValue
deriving DecidableEq, Repr

structure BDesc where
  IsArray : Bool
  ValueType : GoKind
  Default : BDefault
deriving DecidableEq, Repr

/-- The builder-era `ConfigNode`.  The `Parent` back-pointer is set by
`AddChildNode` but read by none of the functions studied in this section,
so it is not carried. -/
inductive BNode where
  | mk
      (FieldName : String)
      (Description : String)
      (EnvName : String)
      (IsArrayOfStructs : Bool)
      (Children : List BNode)
      (Level : Int)
      (ConfigDescription : Option BDesc)

def BNode.FieldName : BNode → String
  | .mk f _ _ _ _ _ _ => f

def BNode.Description : BNode → String
  | .mk _ d _ _ _ _ _ => d

def BNode.EnvName : BNode → String
  | .mk _ _ e _ _ _ _ => e

def BNode.IsArrayOfStructs : BNode → Bool
  | .mk _ _ _ a _ _ _ => a

def BNode.Children : BNode → List BNode
  | .mk _ _ _ _ c _ _ => c

def BNode.Level : BNode → Int
  | .mk _ _ _ _ _ l _ => l

def BNode.ConfigDescription : BNode → Option BDesc
  | .mk _ _ _ _ _ _ cd => cd

def BNode.withChildren : BNode → List BNode → BNode
  | .mk f d e a _ l cd, ch => .mk f d e a ch l cd

def BNode.withIsArrayOfStructs : BNode → Bool → BNode
  | .mk f d e _ ch l cd, a => .mk f d e a ch l cd

def BNode.withConfigDescription : BNode → Option BDesc → BNode
  | .mk f d e a ch l _, cd => .mk f d e a ch l cd

/-- Embeds `func NewRootNode() *ConfigNode` (builder era). -/
def NewRootBNode : BNode := .mk "root" "root node" "" false [] 0 none

/-- Embeds `func (r *ConfigNode) SetConfigDescription(isArray bool, ValueType reflect.Kind, isDefaultExist bool, defaultValue interface{}) error` (builder era). -/
def BNode.SetConfigDescription (r : BNode) (isArray : Bool) (valueType : GoKind)
    (isDefaultExist : Bool) (defaultValue : GoValue) : Except String BNode :=
  if r.Children.length > 0 then
    .error ("children in node != 0. setting item to node is not possible, node: " ++ r.FieldName)
  else
    .ok (r.withConfigDescription (some ⟨isArray, valueType, ⟨isDefaultExist, defaultValue⟩⟩))

/-- The element loop of the integer-array default branch (`strconv.Atoi` per
element, first failure wins); the error value is the offending element. -/
def parseIntElems : List String → Except String (List Int)
  | [] => .ok []
  | s :: rest =>
    match parseGoInt64 s with
    | none => .error s
    | some n =>
      match parseIntElems rest with
      | .error e => .error e
      | .ok xs => .ok (n :: xs)

/-- The element loop of the float-array default branch. -/
def parseFloatElems : List String → Except String (List String)
  | [] => .ok []
  | s :: rest =>
    match parseGoFloat s with
    | none => .error s
    | some lit =>
      match parseFloatElems rest with
      | .error e => .error e
      | .ok xs => .ok (lit :: xs)

/-- The element loop of the boolean-array default branch. -/
def parseBoolElems : List String → Except String (List Bool)
  | [] => .ok []
  | s :: rest =>
    match parseGoBool s with
    | none => .error s
    | some b =>
      match parseBoolElems rest with
      | .error e => .error e
      | .ok xs => .ok (b :: xs)

/-- The default-tag coercion of `parseDescription`: given array-ness, the
element/value kind and the raw tag, produce the `interface{}` default or the
parse error.  Mirrors the two `switch` statements of
`internal/parser/parser.go`. -/
def coerceDefaultTag (isArray : Bool) (valueType : GoKind) (fieldKind : GoKind)
    (defaultTag : String) : Except String GoValue :=
  if isArray then
    match valueType with
    | .string => .ok (.sliceStrV (goSplitComma defaultTag))
    | .int | .int32 | .int64 =>
      match parseIntElems (goSplitComma defaultTag) with
      | .error bad => .error ("cannot parse '" ++ bad ++ "' as integer in array")
      | .ok xs => .ok (.sliceIntV xs)
    | .float32 | .float64 =>
      match parseFloatElems (goSplitComma defaultTag) with
      | .error bad => .error ("cannot parse '" ++ bad ++ "' as float in array")
      | .ok xs => .ok (.sliceFloatV xs)
    | .bool =>
      match parseBoolElems (goSplitComma defaultTag) with
      | .error bad => .error ("cannot parse '" ++ bad ++ "' as boolean in array")
      | .ok xs => .ok (.sliceBoolV xs)
    | k => .error ("unsupported slice type: " ++ k.kindName)
  else
    match fieldKind with
    | .string => .ok (.strV defaultTag)
    | .int | .int32 | .int64 =>
      match parseGoInt64 defaultTag with
      | none => .error ("cannot parse '" ++ defaultTag ++ "' as integer")
      | some n => .ok (.intV n)
    | .bool =>
      match parseGoBool defaultTag with
      | none => .error ("cannot parse '" ++ defaultTag ++ "' as boolean")
      | some b => .ok (.boolV b)
    | .float32 | .float64 =>
      match parseGoFloat defaultTag with
      | none => .error ("cannot parse '" ++ defaultTag ++ "' as float")
      | some lit => .ok (.floatV lit)
    | _ => .ok (.strV defaultTag)

/-- Embeds `func parseDescription(configNode *ConfigNode, field reflect.StructField) error`.
On success the updated node is returned. -/
def parseDescription (configNode : BNode) (field : GoField) : Except String BNode :=
  match field.typ with
  | .struct_ _ => .error ("expected not struct type but got " ++ field.typ.kind.kindName)
  | _ =>
    let isArray : Bool := match field.typ with | .slice _ => true | _ => false
    let valueType : GoKind :=
      match field.typ with
      | .slice elem => elem.kind
      | t => t.kind
    match field.defaultTag with
    | none =>
      -- no `default` tag: `defaultValue` stays the nil `interface{}`
      configNode.SetConfigDescription isArray valueType false .nilV
    | some defaultTag =>
      match coerceDefaultTag isArray valueType field.typ.kind defaultTag with
      | .error e => .error e
      | .ok defaultValue => configNode.SetConfigDescription isArray valueType true defaultValue

mutual
/-- Embeds `func parseNode(parentNode *ConfigNode, t reflect.Type) error`, on the
field list of a struct type.  In Go the child pointer is attached to the
parent by `AddChildNode` before its subtree is built; since the parent is not
read while the subtree is built, the embedding performs the `AddChildNode`
guard first, then builds the child, then appends it. -/
def parseNodeFields : BNode → List GoField → Except String BNode
  | parentNode, [] => .ok parentNode
  | parentNode, field :: rest =>
    match field.mapstructureTag with
    | none => .error ("field " ++ field.name ++ " has no 'mapstructure' tag")
    | some fieldName =>
      -- `parentNode.AddChildNode(currentNode)` error case
      if parentNode.ConfigDescription.isSome then
        .error ("item in node != nil. adding children node is not possible. name: " ++ fieldName)
      else
        let currentNode : BNode :=
          .mk fieldName field.descTag (field.envTag.getD "") false [] (parentNode.Level + 1) none
        match buildFieldSubtree currentNode field with
        | .error e => .error e
        | .ok child =>
          parseNodeFields (parentNode.withChildren (parentNode.Children ++ [child])) rest

/-- The per-field branch of `parseNode`: slice-of-struct fields recurse into
the element type with `IsArrayOfStructs` set, struct fields recurse, and
every other field goes through `parseDescription`. -/
def buildFieldSubtree : BNode → GoField → Except String BNode
  | currentNode, .mk n pp ms ds es dfs typ =>
    match typ with
    | .slice (.struct_ elemFields) =>
      parseNodeFields (currentNode.withIsArrayOfStructs true) elemFields
    | .struct_ fields => parseNodeFields currentNode fields
    | t => parseDescription currentNode (.mk n pp ms ds es dfs t)
end

/-- Embeds `func ParseConfigStruct(configStruct interface{}) (*ConfigNode, error)`:
returns the pair (tree, error); on a `parseNode` failure the tree is nil. -/
def ParseConfigStruct (t : GoType) : Option BNode × Option String :=
  let rootNode := NewRootBNode
  match t with
  | .struct_ fields =>
    match parseNodeFields rootNode fields with
    | .error e => (none, some ("parsing config struct error: " ++ e))
    | .ok tree => (some tree, none)
  | _ => (some rootNode, some ("expected a struct type but got " ++ t.kind.kindName))

mutual
/-- Whether some field of the list, at any nesting depth, is a scalar of
integer/float/boolean kind whose declared `default` tag fails to parse. -/
def fieldsHaveBadScalarDefault : List GoField → Bool
  | [] => false
  | f :: rest => fieldHasBadScalarDefaultDeep f || fieldsHaveBadScalarDefault rest

/-- Whether the field itself is a bad-default scalar, or contains one inside
a nested struct or slice-of-struct type. -/
def fieldHasBadScalarDefaultDeep : GoField → Bool
  | .mk _ _ _ _ _ dflt typ =>
    (match dflt, typ with
     | some d, .int | some d, .int32 | some d, .int64 => (parseGoInt64 d).isNone
     | some d, .bool => (parseGoBool d).isNone
     | some d, .float32 | some d, .float64 => (parseGoFloat d).isNone
     | _, _ => false)
    ||
    (match typ with
     | .struct_ fs => fieldsHaveBadScalarDefault fs
     | .slice (.struct_ fs) => fieldsHaveBadScalarDefault fs
     | _ => false)
end

end SchemaBuilder

/-! ### The YAML template renderer of `internal/helper`

Embeds `GenerateYAMLFromTree(node, indent string, printDescription bool)`
and its `formatValue`, operating on the builder-era node `BNode`. -/

namespace YamlHelper

open SchemaBuilder

/-- Whitespace in the sense of `unicode.IsSpace`, restricted to the ASCII
space characters (the renderer only ever produces spaces and newlines). -/
def isSpaceChar (c : Char) : Bool :=
  c = ' ' ∨ c = '\t' ∨ c = '\n' ∨ c = '\r'

/-- Model of `strings.TrimSpace`. -/
def goTrimSpace (s : String) : String :=
  String.mk (((s.data.dropWhile isSpaceChar).reverse.dropWhile isSpaceChar).reverse)

/-- Embeds `func formatValue(value interface{}) (string, error)` (the variant with
scalar cases only): nil renders as `null`, strings are quote-wrapped,
booleans and numbers render bare, anything else is a type-not-supported
error.  `%v` of a modelled float is its carried literal. -/
def formatValue : GoValue → Except String String
  | .nilV => .ok "null"
  | .strV s => .ok ("\"" ++ s ++ "\"")
  | .boolV b => .ok (if b then "true" else "false")
  | .intV n => .ok (toString n)
  | .floatV lit => .ok lit
  | v => .error ("unsupported type: " ++ v.typeName)

/-- The slice-coercion `switch` of the primitive-array branch: converts the
stored default into a `[]interface{}`, or fails with the `%T` of the value.
A nil `interface{}` matches no typed case and falls to `default`. -/
def coerceToSlice : GoValue → Except String (List GoValue)
  | .sliceStrV xs => .ok (xs.map GoValue.strV)
  | .sliceIntV xs => .ok (xs.map GoValue.intV)
  | .sliceFloatV xs => .ok (xs.map GoValue.floatV)
  | .sliceBoolV xs => .ok (xs.map GoValue.boolV)
  | v => .error ("unsupported slice type: " ++ v.typeName)

/-- The element loop of the primitive-array branch: one `"<indent>  - <value>"`
line per element. -/
def formatItemLines (indent : String) : List GoValue → Except String String
  | [] => .ok ""
  | elem :: rest =>
    match formatValue elem with
    | .error e => .error e
    | .ok elemStr =>
      match formatItemLines indent rest with
      | .error e => .error e
      | .ok restStr => .ok (indent ++ "  " ++ "- " ++ elemStr ++ "\n" ++ restStr)

/-- The optional description-comment line emitted before a header. -/
def commentLine (indent : String) (printDescription : Bool) (description : String) : String :=
  if printDescription ∧ description ≠ "" then indent ++ "# " ++ description ++ "\n" else ""

mutual
/-- Embeds `func GenerateYAMLFromTree(node *parser.ConfigNode, indent string, printDescription bool) (string, error)`. -/
def GenerateYAMLFromTree (node : BNode) (indent : String) (printDescription : Bool) :
    Except String String :=
  match node with
  | .mk fieldName description _ isArrayOfStructs children level configDescription =>
    let isRootNode : Bool := level = 0
    let ownPart : Except String String :=
      if isRootNode then .ok ""
      else if isArrayOfStructs then
        let indentOfStruct := indent ++ "    "
        match genStructArrayItems indentOfStruct printDescription "-" children with
        | .error e => .error e
        | .ok items =>
          .ok (commentLine indent printDescription description ++
            indent ++ fieldName ++ ":\n" ++ items)
      else
        match configDescription with
        | some cd =>
          if cd.IsArray then
            match coerceToSlice cd.Default.Value with
            | .error e => .error e
            | .ok slice =>
              match formatItemLines indent slice with
              | .error e => .error e
              | .ok items =>
                .ok (commentLine indent printDescription description ++
                  indent ++ fieldName ++ ":\n" ++ items)
          else
            match formatValue cd.Default.Value with
            | .error e => .error e
            | .ok valueStr =>
              let comment :=
                if printDescription ∧ description ≠ "" then "  # " ++ description else ""
              .ok (indent ++ fieldName ++ ": " ++ valueStr ++ comment ++ "\n")
        | none =>
          if children.length > 0 then
            .ok (commentLine indent printDescription description ++
              indent ++ fieldName ++ ":\n")
          else .ok ""
    match ownPart with
    | .error e => .error e
    | .ok own =>
      if isArrayOfStructs then .ok own
      else
        let nextIndent := if isRootNode then "" else indent ++ "    "
        match genChildrenParts nextIndent printDescription children with
        | .error e => .error e
        | .ok sub => .ok (own ++ sub)

/-- The struct-array loop: each child element is rendered two levels deeper,
trimmed, and emitted behind a `"- "` marker for the first element and
matching blank padding for the rest. -/
def genStructArrayItems (indentOfStruct : String) (printDescription : Bool) (dash : String) :
    List BNode → Except String String
  | [] => .ok ""
  | childNode :: rest =>
    match GenerateYAMLFromTree childNode (indentOfStruct ++ "  ") printDescription with
    | .error e => .error e
    | .ok itemYAML =>
      match genStructArrayItems indentOfStruct printDescription " " rest with
      | .error e => .error e
      | .ok restStr =>
        .ok (indentOfStruct ++ dash ++ " " ++ goTrimSpace itemYAML ++ "\n" ++ restStr)

/-- The bottom child-recursion loop of `GenerateYAMLFromTree`. -/
def genChildrenParts (nextIndent : String) (printDescription : Bool) :
    List BNode → Except String String
  | [] => .ok ""
  | child :: rest =>
    match GenerateYAMLFromTree child nextIndent printDescription with
    | .error e => .error e
    | .ok subTreeYaml =>
      match genChildrenParts nextIndent printDescription rest with
      | .error e => .error e
      | .ok restStr => .ok (subTreeYaml ++ restStr)
end

end YamlHelper

/-! ### The default-value extraction of `internal/parser/defaultValues`

Embeds `GetDefaultValues` / `parseDefaultValues` over the same declarative
field view.  `encoding/json` unmarshalling of a primitive slice is modelled
by a small JSON-array parser (fuel-indexed recursion; the fuel is always
sufficient because every step consumes input).  The `time.Duration` and map
branches of the source are outside the modelled type language and are not
represented; neither is reachable from any claim. -/

namespace DefaultValues

open SchemaBuilder

/-- Model of `strings.ToLower` (ASCII). -/
def goToLower (s : String) : String := String.mk (s.data.map Char.toLower)

def jsonIsWs (c : Char) : Bool := c = ' ' ∨ c = '\t' ∨ c = '\n' ∨ c = '\r'

def jsonSkipWs (cs : List Char) : List Char := cs.dropWhile jsonIsWs

def jsonEscapeChar (c : Char) : Option Char :=
  if c = '"' then some '"'
  else if c = '\\' then some '\\'
  else if c = '/' then some '/'
  else if c = 'b' then some (Char.ofNat 8)
  else if c = 'f' then some (Char.ofNat 12)
  else if c = 'n' then some '\n'
  else if c = 'r' then some '\r'
  else if c = 't' then some '\t'
  else none

def hexDigitVal (c : Char) : Option Nat :=
  if c.isDigit then some (c.toNat - 48)
  else if 'a' ≤ c ∧ c ≤ 'f' then some (c.toNat - 87)
  else if 'A' ≤ c ∧ c ≤ 'F' then some (c.toNat - 55)
  else none

/-- Body of a JSON string after the opening quote; returns the decoded
characters and the input remaining after the closing quote.  Unicode escapes
are decoded without surrogate pairing (no claim exercises them). -/
def jsonStringBody : Nat → List Char → Option (List Char × List Char)
  | 0, _ => none
  | _, [] => none
  | fuel + 1, c :: rest =>
    if c = '"' then some ([], rest)
    else if c = '\\' then
      match rest with
      | [] => none
      | 'u' :: a :: b :: cc :: d :: rest2 =>
        match hexDigitVal a, hexDigitVal b, hexDigitVal cc, hexDigitVal d with
        | some va, some vb, some vc, some vd =>
          match jsonStringBody fuel rest2 with
          | none => none
          | some (tail, rem) =>
            some (Char.ofNat (va * 4096 + vb * 256 + vc * 16 + vd) :: tail, rem)
        | _, _, _, _ => none
      | e :: rest2 =>
        match jsonEscapeChar e with
        | none => none
        | some decoded =>
          match jsonStringBody fuel rest2 with
          | none => none
          | some (tail, rem) => some (decoded :: tail, rem)
    else
      match jsonStringBody fuel rest with
      | none => none
      | some (tail, rem) => some (c :: tail, rem)

/-- One JSON string element (leading whitespace allowed). -/
def jsonStringElem (fuel : Nat) (cs : List Char) : Option (String × List Char) :=
  match jsonSkipWs cs with
  | '"' :: rest =>
    match jsonStringBody fuel rest with
    | none => none
    | some (content, rem) => some (String.mk content, rem)
  | _ => none

/-- Digits of a JSON integer part (no leading zero before further digits). -/
def jsonDigits (cs : List Char) : Option (List Char × List Char) :=
  match cs.span (·.isDigit) with
  | ([], _) => none
  | (d :: ds, rest) =>
    if d = '0' ∧ ds ≠ [] then none else some (d :: ds, rest)

/-- One JSON integer element: decoding a fractional or exponent form into an
integer target fails, as `encoding/json` does. -/
def jsonIntElem (cs : List Char) : Option (Int × List Char) :=
  let cs1 := jsonSkipWs cs
  let signed : Bool × List Char :=
    match cs1 with
    | '-' :: rest => (true, rest)
    | _ => (false, cs1)
  match jsonDigits signed.2 with
  | none => none
  | some (ds, rest) =>
    match rest with
    | '.' :: _ => none
    | 'e' :: _ => none
    | 'E' :: _ => none
    | _ =>
      match digitsToNat? ds with
      | none => none
      | some n => some (if signed.1 then -(n : Int) else (n : Int), rest)

/-- One JSON boolean element. -/
def jsonBoolElem (cs : List Char) : Option (Bool × List Char) :=
  match jsonSkipWs cs with
  | 't' :: 'r' :: 'u' :: 'e' :: rest => some (true, rest)
  | 'f' :: 'a' :: 'l' :: 's' :: 'e' :: rest => some (false, rest)
  | _ => none

/-- One JSON number element for a float target; the literal is kept. -/
def jsonFloatElem (cs : List Char) : Option (String × List Char) :=
  let cs1 := jsonSkipWs cs
  let signed : Bool × List Char :=
    match cs1 with
    | '-' :: rest => (true, rest)
    | _ => (false, cs1)
  match jsonDigits signed.2 with
  | none => none
  | some (ds, rest) =>
    let fracPart : Option (List Char × List Char) :=
      match rest with
      | '.' :: rest2 =>
        match jsonDigits rest2 with
        | none => none
        | some (fs, rest3) => some ('.' :: fs, rest3)
      | _ => some ([], rest)
    match fracPart with
    | none => none
    | some (fcs, rest3) =>
      let expPart : Option (List Char × List Char) :=
        match rest3 with
        | 'e' :: rest4 =>
          match rest4 with
          | '+' :: rest5 =>
            (jsonDigits rest5).map fun (es, r) => ('e' :: '+' :: es, r)
          | '-' :: rest5 =>
            (jsonDigits rest5).map fun (es, r) => ('e' :: '-' :: es, r)
          | _ => (jsonDigits rest4).map fun (es, r) => ('e' :: es, r)
        | 'E' :: rest4 =>
          match rest4 with
          | '+' :: rest5 =>
            (jsonDigits rest5).map fun (es, r) => ('E' :: '+' :: es, r)
          | '-' :: rest5 =>
            (jsonDigits rest5).map fun (es, r) => ('E' :: '-' :: es, r)
          | _ => (jsonDigits rest4).map fun (es, r) => ('E' :: es, r)
        | _ => some ([], rest3)
      match expPart with
      | none => none
      | some (ecs, rest5) =>
        some (String.mk ((if signed.1 then ['-'] else []) ++ ds ++ fcs ++ ecs), rest5)

/-- The comma-separated continuation of a JSON array (fuel-indexed). -/
def jsonArrayItemsFrom {α : Type} (elem : List Char → Option (α × List Char)) :
    Nat → List Char → Option (List α × List Char)
  | 0, _ => none
  | fuel + 1, cs =>
    match elem cs with
    | none => none
    | some (x, rest) =>
      match jsonSkipWs rest with
      | ']' :: rest2 => some ([x], rest2)
      | ',' :: rest2 =>
        match jsonArrayItemsFrom elem fuel rest2 with
        | none => none
        | some (xs, rest3) => some (x :: xs, rest3)
      | _ => none

/-- A whole JSON array document: `ws [ ws (elem (ws , ws elem)*)? ws ] ws`. -/
def jsonParseArrayWith {α : Type} (elem : List Char → Option (α × List Char))
    (s : String) : Option (List α) :=
  let fuel := s.length + 1
  match jsonSkipWs s.data with
  | '[' :: rest =>
    let result : Option (List α × List Char) :=
      match jsonSkipWs rest with
      | ']' :: rest2 => some ([], rest2)
      | _ => jsonArrayItemsFrom elem fuel rest
    match result with
    | none => none
    | some (xs, rem) =>
      if (jsonSkipWs rem).isEmpty then some xs else none
  | _ => none

/-- Embeds `json.Unmarshal` of the raw default text into a slice of the field's
primitive element type. -/
def jsonUnmarshalSlice (elemKind : GoKind) (s : String) : Option GoValue :=
  match elemKind with
  | .string =>
    (jsonParseArrayWith (fun cs => jsonStringElem (s.length + 1) cs) s).map .sliceStrV
  | .int | .int32 | .int64 => (jsonParseArrayWith jsonIntElem s).map .sliceIntV
  | .bool => (jsonParseArrayWith jsonBoolElem s).map .sliceBoolV
  | .float32 | .float64 => (jsonParseArrayWith jsonFloatElem s).map .sliceFloatV
  | _ => none

structure DefaultInfo where
  BindKey : String
  DefaultValue : GoValue
deriving DecidableEq, Repr

/-- Embeds `func getMapstructureKey(field reflect.StructField) string` -/
def getMapstructureKey (field : GoField) : String :=
  let msVal := field.mapstructureTag.getD ""
  if msVal = "" then goToLower field.name else msVal

/-- Embeds `func getDefaultValue(tag reflect.StructTag) string` -/
def getDefaultValue (field : GoField) : String := field.defaultTag.getD ""

/-- Embeds `func isPrimitive(kind reflect.Kind) bool` (restricted to the kinds in
the modelled type language; the unsigned and small-width integer kinds it
also accepts are not representable here). -/
def isPrimitive (k : GoKind) : Bool :=
  match k with
  | .bool | .int | .int32 | .int64 | .float32 | .float64 | .string => true
  | _ => false

/-- The bind-key of a child: `parentBindKey + "." + msKey` when both are
non-empty. -/
def childBindKeyOf (parentBindKey msKey : String) : String :=
  if parentBindKey ≠ "" ∧ msKey ≠ "" then parentBindKey ++ "." ++ msKey
  else if msKey ≠ "" then msKey
  else parentBindKey

/-- The per-field default coercion of `parseDefaultValues` for a non-struct
field whose default tag is non-empty: `none` models the
print-and-`continue` path (the field contributes no entry). -/
def coerceDVField (typ : GoType) (defaultValStr : String) : Option GoValue :=
  match typ with
  | .slice elem =>
    if !isPrimitive elem.kind then none
    else if defaultValStr.data.head? = some '[' ∧ defaultValStr.data.getLast? = some ']' then
      jsonUnmarshalSlice elem.kind defaultValStr
    else
      some (.sliceStrV (goSplitComma defaultValStr))
  | .string => some (.strV defaultValStr)
  | .int | .int32 | .int64 => (parseGoInt64 defaultValStr).map .intV
  | .bool => (parseGoBool defaultValStr).map .boolV
  | .float32 | .float64 => (parseGoFloat defaultValStr).map .floatV
  | _ => some (.strV defaultValStr)

mutual
/-- The field loop of `parseDefaultValues`. -/
def parseDVFields : List GoField → String → Except String (List DefaultInfo)
  | [], _ => .ok []
  | field :: rest, parentBindKey =>
    if field.pkgPath ≠ "" then parseDVFields rest parentBindKey
    else
      let childBindKey := childBindKeyOf parentBindKey (getMapstructureKey field)
      match parseDVField field childBindKey with
      | .error e => .error e
      | .ok here =>
        match parseDVFields rest parentBindKey with
        | .error e => .error e
        | .ok there => .ok (here ++ there)

/-- One field of `parseDefaultValues`: nested structs recurse, every other
field contributes at most one `DefaultInfo`. -/
def parseDVField : GoField → String → Except String (List DefaultInfo)
  | .mk _ _ _ _ _ _ (.struct_ fs), childBindKey => parseDVFields fs childBindKey
  | .mk n pp ms ds es dfs typ, childBindKey =>
    let field := GoField.mk n pp ms ds es dfs typ
    let defaultValStr := getDefaultValue field
    if defaultValStr = "" then .ok []
    else
      match coerceDVField typ defaultValStr with
      | none => .ok []
      | some v => .ok [⟨childBindKey, v⟩]
end

/-- Embeds `func parseDefaultValues(t reflect.Type, parentBindKey string, lines *[]DefaultInfo) error`
(the pointer-unwrapping step is not modelled: the type language has no
pointers). -/
def parseDefaultValues (t : GoType) (parentBindKey : String) :
    Except String (List DefaultInfo) :=
  match t with
  | .struct_ fields => parseDVFields fields parentBindKey
  | _ => .error "not a struct"

/-- Embeds `func GetDefaultValues(cfg interface{}) ([]DefaultInfo, error)` -/
def GetDefaultValues (t : GoType) : Except String (List DefaultInfo) :=
  parseDefaultValues t ""

end DefaultValues

/-! ### The configuration manager (`ConfigManager`)

Embeds `loadConfig` / `updateConfig` / `Config`.  The viper file read, the
unmarshal step and the `Validate` hook are external collaborators; their
outcomes are passed as explicit inputs, and the manager state carries only
the published configuration pointer. -/

namespace Manager

structure ConfigManagerState (T : Type) where
  config : Option T

/-- Embeds `func (r *ConfigManager[T]) loadConfig() (*T, error)`: file read, decode
and validation in sequence, each failure aborting with its wrapped
message. -/
def loadConfig {T : Type} (readInConfig : Except String Unit)
    (unmarshal : Except String T) (validate : T → Option String) : Except String T :=
  match readInConfig with
  | .error e => .error ("error reading config file: " ++ e)
  | .ok _ =>
    match unmarshal with
    | .error e => .error ("Unable to decode into struct: " ++ e)
    | .ok cfg =>
      match validate cfg with
      | some e => .error ("Validation error: " ++ e)
      | none => .ok cfg

/-- Embeds `func (r *ConfigManager[T]) updateConfig() (*T, error)`: the published
config is replaced only after a fully successful load. -/
def updateConfig {T : Type} (st : ConfigManagerState T) (readInConfig : Except String Unit)
    (unmarshal : Except String T) (validate : T → Option String) :
    ConfigManagerState T × Except String T :=
  match loadConfig readInConfig unmarshal validate with
  | .error e => (st, .error e)
  | .ok newConfig => ({ config := some newConfig }, .ok newConfig)

/-- Embeds `func (r *ConfigManager[T]) Config() T` (the nil-pointer panic before the
first successful resolution is modelled by `none`). -/
def Config {T : Type} (st : ConfigManagerState T) : Option T := st.config

end Manager

/-! ### The change notifier (`ConfigUpdateNotifier`)

Embeds the subscriber registry: a buffered channel of capacity one is an
`Option` mailbox, the channel-close events are recorded in order, and the
mutex-serialised operations `Subscribe`, the cancellation monitor and
`NewEvent` act on the whole state. -/

namespace Notifier

structure Subscriber (M : Type) where
  id : Nat
  buffer : Option M
deriving DecidableEq, Repr

structure NotifierState (M : Type) where
  subscribers : List (Subscriber M)
  closed : List Nat
  nextId : Nat

/-- Embeds `func (r *ConfigUpdateNotifier[T]) Subscribe(ctx context.Context) <-chan ConfigUpdateMsg[T]`:
registers a fresh empty one-slot channel and returns its identity. -/
def Subscribe {M : Type} (st : NotifierState M) : NotifierState M × Nat :=
  ({ subscribers := st.subscribers ++ [⟨st.nextId, none⟩],
     closed := st.closed,
     nextId := st.nextId + 1 }, st.nextId)

/-- The cancellation monitor goroutine body (`<-ctx.Done()` satisfied):
removes the channel from the subscriber set and closes it, atomically under
the notifier lock. -/
def cancelSubscription {M : Type} (st : NotifierState M) (id : Nat) : NotifierState M :=
  { subscribers := st.subscribers.filter (fun s => s.id ≠ id),
    closed := st.closed ++ [id],
    nextId := st.nextId }

/-- Embeds `func (r *ConfigUpdateNotifier[T]) NewEvent(msg ConfigUpdateMsg[T])`:
non-blocking send to every registered channel — an empty buffer receives the
event, a full buffer drops it. -/
def NewEvent {M : Type} (st : NotifierState M) (msg : M) : NotifierState M :=
  { subscribers :=
      st.subscribers.map (fun s =>
        match s.buffer with
        | none => { s with buffer := some msg }
        | some _ => s),
    closed := st.closed,
    nextId := st.nextId }

end Notifier

/-! ### The inline env-help renderer of `inspector.go` -/

namespace Inspector

/-- The `env.EnvInfo` record feeding the help renderers. -/
structure EnvInfo where
  EnvVar : String
  DefaultValue : String
  HelpText : String
  BindKey : String
  ValueType : String
deriving DecidableEq, Repr

/-- Embeds `func formatEnvHelpInline(lines []env.EnvInfo) string`: the loop builds
each line incrementally and appends it with a newline. -/
def formatEnvHelpInline (lines : List EnvInfo) : String :=
  lines.foldl
    (fun sb info =>
      let line := info.EnvVar
      let line := if info.DefaultValue ≠ "" then line ++ " [default=" ++ info.DefaultValue ++ "]" else line
      let line := if info.HelpText ≠ "" then line ++ " # " ++ info.HelpText else line
      sb ++ (line ++ "\n"))
    ""

/-- The line format as the specification words it: the variable name, then
the default segment exactly when a default exists, then the help segment
exactly when help exists, with absent segments omitted entirely. -/
def inlineLineSpec (info : EnvInfo) : String :=
  info.EnvVar
    ++ (if info.DefaultValue ≠ "" then " [default=" ++ info.DefaultValue ++ "]" else "")
    ++ (if info.HelpText ≠ "" then " # " ++ info.HelpText else "")

end Inspector

/-! ### Shared helpers for the theorems -/

/-- Whether an `Except` result is the error case. -/
def exceptIsError {ε α : Type} : Except ε α → Bool
  | .error _ => true
  | .ok _ => false

/-- The coerced default value of the first child of a built tree, when the
build produced a tree, the tree has a first child and that child is a
leaf. -/
def firstChildDefaultValue (res : Option SchemaBuilder.BNode × Option String) : Option GoValue :=
  match res.1 with
  | none => none
  | some tree =>
    match tree.Children with
    | [] => none
    | c :: _ =>
      match c.ConfigDescription with
      | none => none
      | some cd => some cd.Default.Value

section ScratchChecks

example : parseGoBool "true" = some true := rfl
example : parseGoBool "yes" = none := rfl
example : parseGoInt64 "8080" = some 8080 := rfl
example : parseGoInt64 "abc" = none := rfl
example : parseGoInt64 "-17" = some (-17) := rfl
example : parseGoFloat "1.5e3" = some "1.5e3" := rfl
example : parseGoFloat "x1" = none := rfl

open ParserNode in
example :
    let root := NewRootNode
    let secret := ConfigNode.mk "secret" "" "-" [] (some root) 1 none
    let password := ConfigNode.mk "password" "" "" [] (some secret) 2 none
    password.GetEnv = some ("-_PASSWORD", true) := by decide

open ParserNode in
example : NewRootNode.GetEnv = none := by decide

open SchemaBuilder in
example : goSplitComma "a,b,c" = ["a", "b", "c"] := by decide

open SchemaBuilder in
example : goSplitComma "" = [""] := by decide

open SchemaBuilder in
example :
    ParseConfigStruct (.struct_ [.mk "Names" "" (some "names") "List of names" none
      (some "Alice,Bob,Charlie") (.slice .string)]) =
    (some (.mk "root" "root node" "" false
      [.mk "names" "List of names" "" false [] 1
        (some ⟨true, .string, ⟨true, .sliceStrV ["Alice", "Bob", "Charlie"]⟩⟩)] 0 none), none) := rfl

open SchemaBuilder in
example :
    ParseConfigStruct (.struct_ [.mk "Port" "" (some "port") "" none
      (some "abc") .int]) =
    (none, some "parsing config struct error: cannot parse 'abc' as integer") := rfl

open SchemaBuilder YamlHelper in
example :
    GenerateYAMLFromTree
      (.mk "config" "Sample configuration" "" false
        [.mk "features" "Enabled features" "" false [] 2
          (some ⟨true, .string, ⟨true, .sliceStrV ["feature1", "feature2"]⟩⟩),
         .mk "debug" "Debug mode" "" false [] 2
          (some ⟨false, .bool, ⟨true, .boolV true⟩⟩)] 1 none)
      "" false =
    .ok "config:\n    features:\n      - \"feature1\"\n      - \"feature2\"\n    debug: true\n" := rfl

open SchemaBuilder YamlHelper in
example :
    GenerateYAMLFromTree
      (.mk "config" "Complex configuration with nested arrays" "" false
        [.mk "devices" "List of devices" "" true
          [.mk "host" "Device host" "" false [] 3
            (some ⟨false, .string, ⟨true, .strV "127.0.0.1"⟩⟩),
           .mk "port" "Device port" "" false [] 3
            (some ⟨false, .int, ⟨true, .intV 8080⟩⟩),
           .mk "settings" "Device settings" "" true
            [.mk "param" "Parameter name" "" false [] 4
              (some ⟨false, .string, ⟨true, .strV "default"⟩⟩),
             .mk "value" "Parameter value" "" false [] 4
              (some ⟨false, .int, ⟨true, .intV 42⟩⟩)] 3 none,
           .mk "ports" "List of ports for the device" "" false [] 3
            (some ⟨true, .int, ⟨true, .sliceIntV [80, 443, 9090]⟩⟩)] 2 none,
         .mk "names" "List of names" "" false [] 2
          (some ⟨true, .string, ⟨true, .sliceStrV ["Alice", "Bob"]⟩⟩)] 1 none)
      "" true =
    .ok ("# Complex configuration with nested arrays\nconfig:\n    # List of devices\n    devices:\n        - host: \"127.0.0.1\"  # Device host\n          port: 8080  # Device port\n          # Device settings\n          settings:\n              - param: \"default\"  # Parameter name\n                value: 42  # Parameter value\n          # List of ports for the device\n          ports:\n            - 80\n            - 443\n            - 9090\n    # List of names\n    names:\n      - \"Alice\"\n      - \"Bob\"\n") := rfl

open SchemaBuilder YamlHelper in
example :
    GenerateYAMLFromTree
      (.mk "empty_array" "An empty array" "" false [] 1
        (some ⟨true, .string, ⟨false, .nilV⟩⟩))
      "" false = .error "unsupported slice type: <nil>" := rfl

open SchemaBuilder DefaultValues in
example :
    GetDefaultValues (.struct_ [.mk "Names" "" (some "names") "" none
      (some "a,b,c") (.slice .string)]) =
    .ok [⟨"names", .sliceStrV ["a", "b", "c"]⟩] := rfl

open SchemaBuilder DefaultValues in
example :
    GetDefaultValues (.struct_ [.mk "Names" "" (some "names") "" none
      (some "[\"a\",\"b\",\"c\"]") (.slice .string)]) =
    .ok [⟨"names", .sliceStrV ["a", "b", "c"]⟩] := rfl

open SchemaBuilder DefaultValues in
example :
    GetDefaultValues (.struct_ [.mk "Ports" "" (some "ports") "" none
      (some "[80, 443]") (.slice .int)]) =
    .ok [⟨"ports", .sliceIntV [80, 443]⟩] := rfl

end ScratchChecks

/-! ### Claim theorems -/

/-- C1.  Evaluation of `ConfigNode.GetEnv` at a leaf `password` under a
non-root ancestor `secret` carrying the suppress token `"-"`: the code
returns `("-_PASSWORD", true)` — an environment binding that even contains
the dash as a path fragment — because the loop over the ancestors re-checks
the receiver's own `EnvName` instead of the ancestor's, so the suppression
documented for descendants never fires. -/
theorem c1_ancestor_suppress_ignored_eval :
    (ParserNode.ConfigNode.mk "password" "" "" []
      (some (ParserNode.ConfigNode.mk "secret" "" "-" [] (some ParserNode.NewRootNode) 1 none))
      2 none).GetEnv = some ("-_PASSWORD", true) := by
  decide

/-- C2.  A node whose own override token is non-empty and not `"-"` resolves
to exactly that token upper-cased, with `exists = true`: the override fully
replaces the path-derived name and no ancestor fragment is consulted. -/
theorem c2_explicit_override_replaces_path (r : ParserNode.ConfigNode)
    (h₁ : r.EnvName ≠ "") (h₂ : r.EnvName ≠ "-") :
    r.GetEnv = some (goToUpper r.EnvName, true) := by
  simp [ParserNode.ConfigNode.GetEnv, h₁, h₂]

/-- Witness for C2 at a concrete node with override `srv_port` sitting under
an arbitrary parent. -/
theorem c2_explicit_override_replaces_path_witness :
    (ParserNode.ConfigNode.mk "port" "" "srv_port" []
      (some ParserNode.NewRootNode) 1 none).GetEnv = some ("SRV_PORT", true) := by
  have h := c2_explicit_override_replaces_path
    (ParserNode.ConfigNode.mk "port" "" "srv_port" [] (some ParserNode.NewRootNode) 1 none)
    (by decide) (by decide)
  simpa using h

/-- C3 (counterexample).  Building the schema tree from a string-array field
whose default tag is the comma list `a,b,c` coerces to `["a","b","c"]`, but
building it with the JSON-array text `["a","b","c"]` as the tag comma-splits
the JSON text literally, so the two builds do not agree: `parseDescription`
in the tree builder has no JSON branch. -/
theorem c3_tree_build_roundtrip_counterexample :
    firstChildDefaultValue (SchemaBuilder.ParseConfigStruct (.struct_
      [.mk "Names" "" (some "names") "" none (some "a,b,c") (.slice .string)])) =
      some (.sliceStrV ["a", "b", "c"]) ∧
    firstChildDefaultValue (SchemaBuilder.ParseConfigStruct (.struct_
      [.mk "Names" "" (some "names") "" none (some "[\"a\",\"b\",\"c\"]") (.slice .string)])) =
      some (.sliceStrV ["[\"a\"", "\"b\"", "\"c\"]"]) ∧
    firstChildDefaultValue (SchemaBuilder.ParseConfigStruct (.struct_
      [.mk "Names" "" (some "names") "" none (some "a,b,c") (.slice .string)])) ≠
    firstChildDefaultValue (SchemaBuilder.ParseConfigStruct (.struct_
      [.mk "Names" "" (some "names") "" none (some "[\"a\",\"b\",\"c\"]") (.slice .string)])) := by
  refine ⟨rfl, rfl, ?_⟩
  decide

/-- C3 (amended).  The two default-array notations do round-trip on the
default-value extraction path: `GetDefaultValues` JSON-decodes a bracketed
default and comma-splits otherwise, so the comma list `a,b,c` and the JSON
text `["a","b","c"]` yield the same coerced default. -/
theorem c3_default_values_roundtrip :
    DefaultValues.GetDefaultValues (.struct_
      [.mk "Names" "" (some "names") "" none (some "a,b,c") (.slice .string)]) =
    DefaultValues.GetDefaultValues (.struct_
      [.mk "Names" "" (some "names") "" none (some "[\"a\",\"b\",\"c\"]") (.slice .string)]) ∧
    DefaultValues.GetDefaultValues (.struct_
      [.mk "Names" "" (some "names") "" none (some "a,b,c") (.slice .string)]) =
    .ok [⟨"names", .sliceStrV ["a", "b", "c"]⟩] := by
  exact ⟨rfl, rfl⟩

/-- C6.  Container/leaf mutual exclusion on the node operations:
`AddChildNode` fails exactly when the receiver already carries a leaf
descriptor, `SetConfigDescription` fails exactly when the receiver already
has children, and on success `AddChildNode` parents the child at the
receiver, sets its level to the receiver's plus one and appends it, while
`SetConfigDescription` installs the descriptor and changes nothing else. -/
theorem c6_container_leaf_mutual_exclusion (r node : ParserNode.ConfigNode)
    (vt : GoKind) (de : Bool) (dv : GoValue) :
    (exceptIsError (r.AddChildNode node) = true ↔ r.ConfigDescription.isSome = true) ∧
    (exceptIsError (r.SetConfigDescription vt de dv) = true ↔ r.Children ≠ []) ∧
    (r.ConfigDescription = none →
      ∃ child r2, r.AddChildNode node = .ok r2 ∧
        child.Parent = some r ∧
        child.Level = r.Level + 1 ∧
        child.FieldName = node.FieldName ∧
        child.EnvName = node.EnvName ∧
        r2.Children = r.Children ++ [child] ∧
        r2.FieldName = r.FieldName ∧
        r2.ConfigDescription = r.ConfigDescription) ∧
    (r.Children = [] →
      ∃ r2, r.SetConfigDescription vt de dv = .ok r2 ∧
        r2.ConfigDescription = some ⟨vt, ⟨de, dv⟩⟩ ∧
        r2.Children = r.Children ∧
        r2.FieldName = r.FieldName ∧
        r2.Parent = r.Parent ∧
        r2.Level = r.Level) := by
  obtain ⟨f, d, e, ch, p, lv, cd⟩ := r
  obtain ⟨nf, nd, ne, nch, np, nlv, ncd⟩ := node
  refine ⟨?_, ?_, ?_, ?_⟩
  · cases cd <;>
      simp [ParserNode.ConfigNode.AddChildNode, ParserNode.ConfigNode.ConfigDescription,
        exceptIsError]
  · cases ch <;>
      simp [ParserNode.ConfigNode.SetConfigDescription, ParserNode.ConfigNode.Children,
        ParserNode.ConfigNode.FieldName, exceptIsError]
  · intro hcd
    simp only [ParserNode.ConfigNode.ConfigDescription] at hcd
    subst hcd
    refine ⟨ParserNode.ConfigNode.mk nf nd ne nch
        (some (ParserNode.ConfigNode.mk f d e ch p lv none)) (lv + 1) ncd,
      ParserNode.ConfigNode.mk f d e
        (ch ++ [ParserNode.ConfigNode.mk nf nd ne nch
          (some (ParserNode.ConfigNode.mk f d e ch p lv none)) (lv + 1) ncd]) p lv none,
      ?_, ?_, ?_, ?_, ?_, ?_, ?_, ?_⟩ <;> rfl
  · intro hch
    simp only [ParserNode.ConfigNode.Children] at hch
    subst hch
    refine ⟨ParserNode.ConfigNode.mk f d e [] p lv (some ⟨vt, ⟨de, dv⟩⟩),
      ?_, ?_, ?_, ?_, ?_, ?_⟩ <;> rfl

/-- Witness for C6 at a fresh root receiver and a fresh child node. -/
theorem c6_container_leaf_mutual_exclusion_witness :
    (exceptIsError (ParserNode.NewRootNode.AddChildNode
        (ParserNode.NewConfigNode "child1" "description")) = true ↔
      ParserNode.NewRootNode.ConfigDescription.isSome = true) ∧
    (exceptIsError (ParserNode.NewRootNode.SetConfigDescription .string true (.strV "default")) =
        true ↔ ParserNode.NewRootNode.Children ≠ []) ∧
    (∃ child r2,
      ParserNode.NewRootNode.AddChildNode (ParserNode.NewConfigNode "child1" "description") =
          .ok r2 ∧
        child.Parent = some ParserNode.NewRootNode ∧
        child.Level = ParserNode.NewRootNode.Level + 1 ∧
        child.FieldName = (ParserNode.NewConfigNode "child1" "description").FieldName ∧
        child.EnvName = (ParserNode.NewConfigNode "child1" "description").EnvName ∧
        r2.Children = ParserNode.NewRootNode.Children ++ [child] ∧
        r2.FieldName = ParserNode.NewRootNode.FieldName ∧
        r2.ConfigDescription = ParserNode.NewRootNode.ConfigDescription) ∧
    (∃ r2,
      ParserNode.NewRootNode.SetConfigDescription .string true (.strV "default") = .ok r2 ∧
        r2.ConfigDescription = some ⟨.string, ⟨true, .strV "default"⟩⟩ ∧
        r2.Children = ParserNode.NewRootNode.Children ∧
        r2.FieldName = ParserNode.NewRootNode.FieldName ∧
        r2.Parent = ParserNode.NewRootNode.Parent ∧
        r2.Level = ParserNode.NewRootNode.Level) := by
  have h := c6_container_leaf_mutual_exclusion ParserNode.NewRootNode
    (ParserNode.NewConfigNode "child1" "description") .string true (.strV "default")
  exact ⟨h.1, h.2.1, h.2.2.1 rfl, h.2.2.2 rfl⟩

/-- C7.  A failed re-resolution is atomic: whenever `loadConfig` fails — the
source cannot be read, decoding fails, or `Validate` rejects — `updateConfig`
returns that error and leaves the published configuration untouched, so a
subsequent `Config()` observes the value from before the attempt; each of
the three failure modes does produce a `loadConfig` failure. -/
theorem c7_failed_reload_preserves_config {T : Type} (st : Manager.ConfigManagerState T)
    (readInConfig : Except String Unit) (unmarshal : Except String T)
    (validate : T → Option String) (e : String)
    (hfail : Manager.loadConfig readInConfig unmarshal validate = .error e) :
    Manager.updateConfig st readInConfig unmarshal validate = (st, .error e) ∧
    Manager.Config (Manager.updateConfig st readInConfig unmarshal validate).1 =
      Manager.Config st ∧
    (∀ re, readInConfig = .error re →
      exceptIsError (Manager.loadConfig readInConfig unmarshal validate) = true) ∧
    (∀ ue, unmarshal = .error ue →
      exceptIsError (Manager.loadConfig readInConfig unmarshal validate) = true) ∧
    (∀ cfg ve, unmarshal = .ok cfg → validate cfg = some ve →
      exceptIsError (Manager.loadConfig readInConfig unmarshal validate) = true) := by
  refine ⟨?_, ?_, ?_, ?_, ?_⟩
  · simp [Manager.updateConfig, hfail]
  · simp [Manager.updateConfig, hfail]
  · intro re hre
    subst hre
    simp [Manager.loadConfig, exceptIsError]
  · intro ue hue
    subst hue
    cases readInConfig <;> simp [Manager.loadConfig, exceptIsError]
  · intro cfg ve hok hve
    subst hok
    cases readInConfig <;> simp [Manager.loadConfig, exceptIsError, hve]

/-- Witness for C7: a validation failure on a concrete manager state leaves
the published value `41` in place. -/
theorem c7_failed_reload_preserves_config_witness :
    Manager.updateConfig (⟨some 41⟩ : Manager.ConfigManagerState Nat)
        (.ok ()) (.ok 42) (fun _ => some "rejected") =
      (⟨some 41⟩, .error "Validation error: rejected") ∧
    Manager.Config (Manager.updateConfig (⟨some 41⟩ : Manager.ConfigManagerState Nat)
        (.ok ()) (.ok 42) (fun _ => some "rejected")).1 =
      Manager.Config (⟨some 41⟩ : Manager.ConfigManagerState Nat) := by
  have h := c7_failed_reload_preserves_config (⟨some 41⟩ : Manager.ConfigManagerState Nat)
    (.ok ()) (.ok 42) (fun _ => some "rejected") "Validation error: rejected" rfl
  exact ⟨h.1, h.2.1⟩

/-- Concatenating a joined list of strings one element at a time. -/
theorem stringJoin_cons (s : String) (l : List String) :
    String.join (s :: l) = s ++ String.join l := by
  apply String.ext
  simp

/-- One step of the `formatEnvHelpInline` loop appends exactly the
specification's line for that record. -/
theorem inlineStep_eq (acc : String) (info : Inspector.EnvInfo) :
    (acc ++
      ((if info.HelpText ≠ ""
        then (if info.DefaultValue ≠ ""
              then info.EnvVar ++ " [default=" ++ info.DefaultValue ++ "]"
              else info.EnvVar) ++ " # " ++ info.HelpText
        else (if info.DefaultValue ≠ ""
              then info.EnvVar ++ " [default=" ++ info.DefaultValue ++ "]"
              else info.EnvVar)) ++ "\n")) =
    acc ++ (Inspector.inlineLineSpec info ++ "\n") := by
  by_cases hd : info.DefaultValue = "" <;> by_cases hh : info.HelpText = "" <;>
    (simp [Inspector.inlineLineSpec, hd, hh, String.append_assoc, String.append_empty]; try rfl)

/-- The `formatEnvHelpInline` fold, generalised over the accumulator. -/
theorem formatEnvHelpInline_foldl (lines : List Inspector.EnvInfo) :
    ∀ acc : String,
      List.foldl
        (fun sb info =>
          let line := info.EnvVar
          let line := if info.DefaultValue ≠ "" then line ++ " [default=" ++ info.DefaultValue ++ "]" else line
          let line := if info.HelpText ≠ "" then line ++ " # " ++ info.HelpText else line
          sb ++ (line ++ "\n"))
        acc lines =
      acc ++ String.join (lines.map (fun i => Inspector.inlineLineSpec i ++ "\n")) := by
  induction lines with
  | nil =>
    intro acc
    simp [String.join, String.append_empty]
  | cons i rest ih =>
    intro acc
    simp only [List.foldl_cons, List.map_cons]
    rw [ih, stringJoin_cons, inlineStep_eq acc i, String.append_assoc]

/-- C9.  The inline env-help renderer emits exactly one newline-terminated
line per record, consisting of the variable name, then the
`" [default=<value>]"` segment exactly when the default string is non-empty,
then the `" # <help>"` segment exactly when the help text is non-empty, with
absent segments omitted entirely. -/
theorem c9_inline_env_help_format (lines : List Inspector.EnvInfo) :
    Inspector.formatEnvHelpInline lines =
      String.join (lines.map (fun i => Inspector.inlineLineSpec i ++ "\n")) := by
  rw [Inspector.formatEnvHelpInline, formatEnvHelpInline_foldl lines ""]
  exact String.empty_append _

/-- C10.  The env-resolution walk is only safe below the root: on the root
node itself (`Parent = nil`) the `GetAllParentNodes` loop condition
dereferences a nil pointer (modelled as `none`), and `GetEnv` on a root with
no override token crashes the same way; for any node with a non-nil parent
both operations complete. -/
theorem c10_getenv_root_nil_deref :
    (∀ r : ParserNode.ConfigNode, r.Parent = none → r.GetAllParentNodes = none) ∧
    (∀ r : ParserNode.ConfigNode, r.Parent = none → r.EnvName = "" → r.GetEnv = none) ∧
    (∀ (r p : ParserNode.ConfigNode), r.Parent = some p →
      (r.GetAllParentNodes).isSome = true) ∧
    (∀ (r p : ParserNode.ConfigNode), r.Parent = some p → (r.GetEnv).isSome = true) := by
  have hwalk : ∀ (r : ParserNode.ConfigNode) (p : ParserNode.ConfigNode),
      r.Parent = some p → r.GetAllParentNodes = some (ParserNode.walkAncestors p).reverse := by
    intro r p h
    simp [ParserNode.ConfigNode.GetAllParentNodes, h]
  refine ⟨?_, ?_, ?_, ?_⟩
  · intro r h
    simp [ParserNode.ConfigNode.GetAllParentNodes, h]
  · intro r h he
    simp [ParserNode.ConfigNode.GetEnv, he, ParserNode.ConfigNode.GetAllParentNodes, h]
  · intro r p h
    simp [hwalk r p h]
  · intro r p h
    by_cases h1 : r.EnvName = "-"
    · simp [ParserNode.ConfigNode.GetEnv, h1]
    · by_cases h2 : r.EnvName = ""
      · rw [ParserNode.ConfigNode.GetEnv]
        rw [h2]
        simp only [hwalk r p h]
        cases hcp : ParserNode.collectPathParts "" (ParserNode.walkAncestors p).reverse with
        | error res => simp [hcp]
        | ok parts => simp [hcp]
      · simp [ParserNode.ConfigNode.GetEnv, h1, h2]

/-- Witness for C10: the freshly constructed root crashes, a first-level
child under it does not. -/
theorem c10_getenv_root_nil_deref_witness :
    ParserNode.NewRootNode.GetAllParentNodes = none ∧
    ParserNode.NewRootNode.GetEnv = none ∧
    ((ParserNode.ConfigNode.mk "port" "" "" [] (some ParserNode.NewRootNode) 1
      none).GetAllParentNodes).isSome = true ∧
    ((ParserNode.ConfigNode.mk "port" "" "" [] (some ParserNode.NewRootNode) 1
      none).GetEnv).isSome = true := by
  refine ⟨c10_getenv_root_nil_deref.1 _ rfl, c10_getenv_root_nil_deref.2.1 _ rfl rfl,
    c10_getenv_root_nil_deref.2.2.1 _ ParserNode.NewRootNode rfl,
    c10_getenv_root_nil_deref.2.2.2 _ ParserNode.NewRootNode rfl⟩

/-- C8.  Never-after-close for the notifier, over the mutex-serialised
operations: once a subscriber's cancellation signal has been handled, it is
no longer registered and its channel has been closed exactly once; a
subsequent publish delivers nothing to it and closes nothing further; and
while active a subscriber holds at most one pending event — a publish fills
an empty one-slot buffer and leaves a full buffer entirely unchanged
(the event is dropped without blocking). -/
theorem c8_notifier_cancel_then_publish {M : Type} (st : Notifier.NotifierState M)
    (msg : M) (id : Nat) (hnc : st.closed.count id = 0) :
    (∀ s ∈ (Notifier.cancelSubscription st id).subscribers, s.id ≠ id) ∧
    ((Notifier.cancelSubscription st id).closed.count id = 1) ∧
    (∀ s ∈ (Notifier.NewEvent (Notifier.cancelSubscription st id) msg).subscribers,
      s.id ≠ id) ∧
    ((Notifier.NewEvent (Notifier.cancelSubscription st id) msg).closed =
      (Notifier.cancelSubscription st id).closed) ∧
    (∀ (i : Nat) (s : Notifier.Subscriber M) (m : M),
      st.subscribers[i]? = some s → s.buffer = some m →
      (Notifier.NewEvent st msg).subscribers[i]? = some s) ∧
    (∀ (i : Nat) (s : Notifier.Subscriber M),
      st.subscribers[i]? = some s → s.buffer = none →
      (Notifier.NewEvent st msg).subscribers[i]? = some ⟨s.id, some msg⟩) := by
  refine ⟨?_, ?_, ?_, ?_, ?_, ?_⟩
  · intro s hs
    simp only [Notifier.cancelSubscription, List.mem_filter] at hs
    exact of_decide_eq_true hs.2
  · simp [Notifier.cancelSubscription, List.count_append, hnc]
  · intro s hs
    simp only [Notifier.NewEvent, Notifier.cancelSubscription, List.mem_map,
      List.mem_filter] at hs
    obtain ⟨pre, ⟨hmem, hpred⟩, hmap⟩ := hs
    have hid : s.id = pre.id := by
      cases hb : pre.buffer <;> rw [hb] at hmap <;> subst hmap <;> rfl
    rw [hid]
    exact of_decide_eq_true hpred
  · rfl
  · intro i s m hget hbuf
    obtain ⟨sid, sbuf⟩ := s
    simp only [Notifier.Subscriber.buffer] at hbuf
    subst hbuf
    simp [Notifier.NewEvent, List.getElem?_map, hget]
  · intro i s hget hbuf
    obtain ⟨sid, sbuf⟩ := s
    simp only [Notifier.Subscriber.buffer] at hbuf
    subst hbuf
    simp [Notifier.NewEvent, List.getElem?_map, hget]

/-- Witness for C8: one registered subscriber with an empty buffer, cancelled
and then published to. -/
theorem c8_notifier_cancel_then_publish_witness :
    (∀ s ∈ (Notifier.cancelSubscription
        (⟨[⟨0, none⟩], [], 1⟩ : Notifier.NotifierState Nat) 0).subscribers, s.id ≠ 0) ∧
    ((Notifier.cancelSubscription
        (⟨[⟨0, none⟩], [], 1⟩ : Notifier.NotifierState Nat) 0).closed.count 0 = 1) ∧
    (∀ s ∈ (Notifier.NewEvent (Notifier.cancelSubscription
        (⟨[⟨0, none⟩], [], 1⟩ : Notifier.NotifierState Nat) 0) 42).subscribers, s.id ≠ 0) ∧
    ((Notifier.NewEvent (Notifier.cancelSubscription
        (⟨[⟨0, none⟩], [], 1⟩ : Notifier.NotifierState Nat) 0) 42).closed =
      (Notifier.cancelSubscription
        (⟨[⟨0, none⟩], [], 1⟩ : Notifier.NotifierState Nat) 0).closed) ∧
    (∀ (i : Nat) (s : Notifier.Subscriber Nat) (m : Nat),
      (⟨[⟨0, none⟩], [], 1⟩ : Notifier.NotifierState Nat).subscribers[i]? = some s →
      s.buffer = some m →
      (Notifier.NewEvent (⟨[⟨0, none⟩], [], 1⟩ : Notifier.NotifierState Nat)
        42).subscribers[i]? = some s) ∧
    (∀ (i : Nat) (s : Notifier.Subscriber Nat),
      (⟨[⟨0, none⟩], [], 1⟩ : Notifier.NotifierState Nat).subscribers[i]? = some s →
      s.buffer = none →
      (Notifier.NewEvent (⟨[⟨0, none⟩], [], 1⟩ : Notifier.NotifierState Nat)
        42).subscribers[i]? = some ⟨s.id, some 42⟩) :=
  c8_notifier_cancel_then_publish (⟨[⟨0, none⟩], [], 1⟩ : Notifier.NotifierState Nat)
    42 0 (by decide)

/-- C5 (counterexample).  A primitive-array leaf with no default present
stores the nil `interface{}` as its default value, and rendering it fails
with `unsupported slice type: <nil>` instead of emitting the `"<name>:"`
header with zero item lines: the slice-coercion type switch has no case for
a nil value, so it falls to the `default` branch. -/
theorem c5_empty_array_render_counterexample :
    YamlHelper.GenerateYAMLFromTree
      (.mk "empty_array" "An empty array" "" false [] 1
        (some ⟨true, .string, ⟨false, .nilV⟩⟩))
      "" false = .error "unsupported slice type: <nil>" := rfl

/-- The item loop of the primitive-array branch on a string slice: one
dash line per element, in order. -/
theorem formatItemLines_strV (indent : String) (elems : List String) :
    YamlHelper.formatItemLines indent (elems.map GoValue.strV) =
      .ok (String.join (elems.map fun e =>
        indent ++ "  " ++ "- " ++ ("\"" ++ e ++ "\"") ++ "\n")) := by
  induction elems with
  | nil => rfl
  | cons e rest ih =>
    simp only [List.map_cons, YamlHelper.formatItemLines, YamlHelper.formatValue, ih,
      stringJoin_cons]

/-- C5 (amended).  For a non-root primitive-array leaf the render outcome is
decided by the stored default value: a recognized slice value (here a string
slice, possibly empty) renders as the `"<name>:"` header followed by one
item line per element — so a present-but-empty default yields the header
with zero item lines — while the nil value left by an absent default makes
rendering fail with `unsupported slice type: <nil>`, regardless of the
recorded `IsExist` flag and declared element kind. -/
theorem c5_array_leaf_render_amended (fieldName description indent : String) (lvl : Int)
    (vt : GoKind) (de : Bool) (elems : List String) (hlvl : lvl ≠ 0) :
    (YamlHelper.GenerateYAMLFromTree
        (.mk fieldName description "" false [] lvl (some ⟨true, vt, ⟨de, .sliceStrV elems⟩⟩))
        indent false =
      .ok (indent ++ fieldName ++ ":\n" ++
        String.join (elems.map fun e => indent ++ "  " ++ "- " ++ ("\"" ++ e ++ "\"") ++ "\n"))) ∧
    (YamlHelper.GenerateYAMLFromTree
        (.mk fieldName description "" false [] lvl (some ⟨true, vt, ⟨de, .nilV⟩⟩))
        indent false =
      .error "unsupported slice type: <nil>") := by
  constructor
  · rw [YamlHelper.GenerateYAMLFromTree]
    simp [hlvl, YamlHelper.coerceToSlice, formatItemLines_strV, YamlHelper.commentLine,
      YamlHelper.genChildrenParts, String.append_empty, String.empty_append]
  · rw [YamlHelper.GenerateYAMLFromTree]
    simp [hlvl, YamlHelper.coerceToSlice, GoValue.typeName]

/-- Witness for C5 (amended) at a concrete leaf: an empty string-slice
default renders as the bare header, the nil default fails. -/
theorem c5_array_leaf_render_amended_witness :
    (YamlHelper.GenerateYAMLFromTree
        (.mk "names" "List of names" "" false [] 1
          (some ⟨true, .string, ⟨true, .sliceStrV []⟩⟩))
        "" false = .ok "names:\n") ∧
    (YamlHelper.GenerateYAMLFromTree
        (.mk "names" "List of names" "" false [] 1
          (some ⟨true, .string, ⟨true, .nilV⟩⟩))
        "" false = .error "unsupported slice type: <nil>") := by
  have h := c5_array_leaf_render_amended "names" "List of names" "" 1 .string true []
    (by decide)
  refine ⟨?_, h.2⟩
  have h1 := h.1
  simpa using h1

/-- Any field list containing, at any depth, a scalar integer/float/boolean
field whose default tag fails to parse makes the builder loop fail. -/
theorem parseNodeFields_isError_of_bad :
    ∀ (n : Nat) (fields : List SchemaBuilder.GoField) (parentNode : SchemaBuilder.BNode),
      sizeOf fields ≤ n → SchemaBuilder.fieldsHaveBadScalarDefault fields = true →
      exceptIsError (SchemaBuilder.parseNodeFields parentNode fields) = true := by
  intro n
  induction n using Nat.strong_induction_on with
  | _ n ih =>
    intro fields parentNode hsize hbad
    match fields with
    | [] => simp [SchemaBuilder.fieldsHaveBadScalarDefault] at hbad
    | .mk nm pp ms ds env dflt typ :: rest =>
      have hsrest : sizeOf rest < n := by
        have h1 : sizeOf ((SchemaBuilder.GoField.mk nm pp ms ds env dflt typ) :: rest) ≤ n :=
          hsize
        simp at h1
        omega
      rw [SchemaBuilder.fieldsHaveBadScalarDefault, Bool.or_eq_true] at hbad
      cases ms with
      | none =>
        simp [SchemaBuilder.parseNodeFields, SchemaBuilder.GoField.mapstructureTag, exceptIsError]
      | some fieldName =>
        simp only [SchemaBuilder.parseNodeFields, SchemaBuilder.GoField.mapstructureTag,
          SchemaBuilder.GoField.name, SchemaBuilder.GoField.descTag, SchemaBuilder.GoField.envTag]
        by_cases hp : parentNode.ConfigDescription.isSome
        · simp [hp, exceptIsError]
        · rw [if_neg hp]
          rcases hbad with hf | hr
          · -- the offending field is this one (or inside its nested type)
            have herr : exceptIsError (SchemaBuilder.buildFieldSubtree
                (.mk fieldName ds (env.getD "") false [] (parentNode.Level + 1) none)
                (.mk nm pp (some fieldName) ds env dflt typ)) = true := by
              cases typ with
              | struct_ fs =>
                have hfs : SchemaBuilder.fieldsHaveBadScalarDefault fs = true := by
                  simpa [SchemaBuilder.fieldHasBadScalarDefaultDeep] using hf
                have hsz : sizeOf fs < n := by
                  have h1 := hsize
                  simp at h1
                  omega
                have := ih (sizeOf fs) hsz fs
                  (.mk fieldName ds (env.getD "") false [] (parentNode.Level + 1) none)
                  le_rfl hfs
                simpa [SchemaBuilder.buildFieldSubtree] using this
              | slice elem =>
                cases elem with
                | struct_ fs =>
                  have hfs : SchemaBuilder.fieldsHaveBadScalarDefault fs = true := by
                    simpa [SchemaBuilder.fieldHasBadScalarDefaultDeep] using hf
                  have hsz : sizeOf fs < n := by
                    have h1 := hsize
                    simp at h1
                    omega
                  have := ih (sizeOf fs) hsz fs
                    ((SchemaBuilder.BNode.mk fieldName ds (env.getD "") false []
                      (parentNode.Level + 1) none).withIsArrayOfStructs true)
                    le_rfl hfs
                  simpa [SchemaBuilder.buildFieldSubtree] using this
                | string => simp [SchemaBuilder.fieldHasBadScalarDefaultDeep] at hf
                | int => simp [SchemaBuilder.fieldHasBadScalarDefaultDeep] at hf
                | int32 => simp [SchemaBuilder.fieldHasBadScalarDefaultDeep] at hf
                | int64 => simp [SchemaBuilder.fieldHasBadScalarDefaultDeep] at hf
                | bool => simp [SchemaBuilder.fieldHasBadScalarDefaultDeep] at hf
                | float32 => simp [SchemaBuilder.fieldHasBadScalarDefaultDeep] at hf
                | float64 => simp [SchemaBuilder.fieldHasBadScalarDefaultDeep] at hf
                | slice e2 => simp [SchemaBuilder.fieldHasBadScalarDefaultDeep] at hf
                | other kn => simp [SchemaBuilder.fieldHasBadScalarDefaultDeep] at hf
              | int =>
                cases dflt with
                | none => simp [SchemaBuilder.fieldHasBadScalarDefaultDeep] at hf
                | some d =>
                  have hparse : parseGoInt64 d = none := by
                    simpa [SchemaBuilder.fieldHasBadScalarDefaultDeep,
                      Option.isNone_iff_eq_none] using hf
                  simp [SchemaBuilder.buildFieldSubtree, SchemaBuilder.parseDescription,
                    SchemaBuilder.GoField.typ, SchemaBuilder.GoField.defaultTag,
                    SchemaBuilder.coerceDefaultTag, SchemaBuilder.GoType.kind, hparse,
                    exceptIsError]
              | int32 =>
                cases dflt with
                | none => simp [SchemaBuilder.fieldHasBadScalarDefaultDeep] at hf
                | some d =>
                  have hparse : parseGoInt64 d = none := by
                    simpa [SchemaBuilder.fieldHasBadScalarDefaultDeep,
                      Option.isNone_iff_eq_none] using hf
                  simp [SchemaBuilder.buildFieldSubtree, SchemaBuilder.parseDescription,
                    SchemaBuilder.GoField.typ, SchemaBuilder.GoField.defaultTag,
                    SchemaBuilder.coerceDefaultTag, SchemaBuilder.GoType.kind, hparse,
                    exceptIsError]
              | int64 =>
                cases dflt with
                | none => simp [SchemaBuilder.fieldHasBadScalarDefaultDeep] at hf
                | some d =>
                  have hparse : parseGoInt64 d = none := by
                    simpa [SchemaBuilder.fieldHasBadScalarDefaultDeep,
                      Option.isNone_iff_eq_none] using hf
                  simp [SchemaBuilder.buildFieldSubtree, SchemaBuilder.parseDescription,
                    SchemaBuilder.GoField.typ, SchemaBuilder.GoField.defaultTag,
                    SchemaBuilder.coerceDefaultTag, SchemaBuilder.GoType.kind, hparse,
                    exceptIsError]
              | bool =>
                cases dflt with
                | none => simp [SchemaBuilder.fieldHasBadScalarDefaultDeep] at hf
                | some d =>
                  have hparse : parseGoBool d = none := by
                    simpa [SchemaBuilder.fieldHasBadScalarDefaultDeep,
                      Option.isNone_iff_eq_none] using hf
                  simp [SchemaBuilder.buildFieldSubtree, SchemaBuilder.parseDescription,
                    SchemaBuilder.GoField.typ, SchemaBuilder.GoField.defaultTag,
                    SchemaBuilder.coerceDefaultTag, SchemaBuilder.GoType.kind, hparse,
                    exceptIsError]
              | float32 =>
                cases dflt with
                | none => simp [SchemaBuilder.fieldHasBadScalarDefaultDeep] at hf
                | some d =>
                  have hparse : parseGoFloat d = none := by
                    simpa [SchemaBuilder.fieldHasBadScalarDefaultDeep,
                      Option.isNone_iff_eq_none] using hf
                  simp [SchemaBuilder.buildFieldSubtree, SchemaBuilder.parseDescription,
                    SchemaBuilder.GoField.typ, SchemaBuilder.GoField.defaultTag,
                    SchemaBuilder.coerceDefaultTag, SchemaBuilder.GoType.kind, hparse,
                    exceptIsError]
              | float64 =>
                cases dflt with
                | none => simp [SchemaBuilder.fieldHasBadScalarDefaultDeep] at hf
                | some d =>
                  have hparse : parseGoFloat d = none := by
                    simpa [SchemaBuilder.fieldHasBadScalarDefaultDeep,
                      Option.isNone_iff_eq_none] using hf
                  simp [SchemaBuilder.buildFieldSubtree, SchemaBuilder.parseDescription,
                    SchemaBuilder.GoField.typ, SchemaBuilder.GoField.defaultTag,
                    SchemaBuilder.coerceDefaultTag, SchemaBuilder.GoType.kind, hparse,
                    exceptIsError]
              | string => simp [SchemaBuilder.fieldHasBadScalarDefaultDeep] at hf
              | other kn => simp [SchemaBuilder.fieldHasBadScalarDefaultDeep] at hf
            cases hbs : SchemaBuilder.buildFieldSubtree
                (.mk fieldName ds (env.getD "") false [] (parentNode.Level + 1) none)
                (.mk nm pp (some fieldName) ds env dflt typ) with
            | error e => simp [exceptIsError]
            | ok child =>
              rw [hbs] at herr
              simp [exceptIsError] at herr
          · cases hbs : SchemaBuilder.buildFieldSubtree
                (.mk fieldName ds (env.getD "") false [] (parentNode.Level + 1) none)
                (.mk nm pp (some fieldName) ds env dflt typ) with
            | error e => simp [exceptIsError]
            | ok child =>
              exact ih (sizeOf rest) hsrest rest _ le_rfl hr

/-- C4.  A scalar field of integer, boolean or float kind whose declared
default fails to parse aborts the whole schema build: `ParseConfigStruct`
returns no tree at all and reports an error, never a zero-value fallback;
and on such a field `parseDescription` produces exactly the error naming
the offending text and the target kind. -/
theorem c4_bad_scalar_default_aborts_build :
    (∀ fields : List SchemaBuilder.GoField,
      SchemaBuilder.fieldsHaveBadScalarDefault fields = true →
      (SchemaBuilder.ParseConfigStruct (.struct_ fields)).1 = none ∧
      ∃ msg, (SchemaBuilder.ParseConfigStruct (.struct_ fields)).2 = some msg) ∧
    (∀ (node : SchemaBuilder.BNode) (nm pp ds : String) (ms env : Option String) (d : String),
      parseGoInt64 d = none →
      SchemaBuilder.parseDescription node (.mk nm pp ms ds env (some d) .int) =
        .error ("cannot parse '" ++ d ++ "' as integer")) ∧
    (∀ (node : SchemaBuilder.BNode) (nm pp ds : String) (ms env : Option String) (d : String),
      parseGoBool d = none →
      SchemaBuilder.parseDescription node (.mk nm pp ms ds env (some d) .bool) =
        .error ("cannot parse '" ++ d ++ "' as boolean")) ∧
    (∀ (node : SchemaBuilder.BNode) (nm pp ds : String) (ms env : Option String) (d : String),
      parseGoFloat d = none →
      SchemaBuilder.parseDescription node (.mk nm pp ms ds env (some d) .float64) =
        .error ("cannot parse '" ++ d ++ "' as float")) := by
  refine ⟨?_, ?_, ?_, ?_⟩
  · intro fields hbad
    have herr := parseNodeFields_isError_of_bad (sizeOf fields) fields
      SchemaBuilder.NewRootBNode le_rfl hbad
    cases hpn : SchemaBuilder.parseNodeFields SchemaBuilder.NewRootBNode fields with
    | error e =>
      constructor
      · simp [SchemaBuilder.ParseConfigStruct, hpn]
      · exact ⟨"parsing config struct error: " ++ e, by simp [SchemaBuilder.ParseConfigStruct, hpn]⟩
    | ok tree =>
      rw [hpn] at herr
      simp [exceptIsError] at herr
  · intro node nm pp ds ms env d h
    simp [SchemaBuilder.parseDescription, SchemaBuilder.GoField.typ,
      SchemaBuilder.GoField.defaultTag, SchemaBuilder.coerceDefaultTag,
      SchemaBuilder.GoType.kind, h]
  · intro node nm pp ds ms env d h
    simp [SchemaBuilder.parseDescription, SchemaBuilder.GoField.typ,
      SchemaBuilder.GoField.defaultTag, SchemaBuilder.coerceDefaultTag,
      SchemaBuilder.GoType.kind, h]
  · intro node nm pp ds ms env d h
    simp [SchemaBuilder.parseDescription, SchemaBuilder.GoField.typ,
      SchemaBuilder.GoField.defaultTag, SchemaBuilder.coerceDefaultTag,
      SchemaBuilder.GoType.kind, h]

/-- Witness for C4: an integer field with default text `abc` makes the whole
build fail with the error naming the text and the kind, and no tree is
returned. -/
theorem c4_bad_scalar_default_aborts_build_witness :
    ((SchemaBuilder.ParseConfigStruct (.struct_
        [.mk "Port" "" (some "port") "" none (some "abc") .int])).1 = none ∧
      ∃ msg, (SchemaBuilder.ParseConfigStruct (.struct_
        [.mk "Port" "" (some "port") "" none (some "abc") .int])).2 = some msg) ∧
    SchemaBuilder.parseDescription SchemaBuilder.NewRootBNode
        (.mk "Port" "" (some "port") "" none (some "abc") .int) =
      .error "cannot parse 'abc' as integer" := by
  refine ⟨c4_bad_scalar_default_aborts_build.1
      [.mk "Port" "" (some "port") "" none (some "abc") .int] (by decide), ?_⟩
  have h := c4_bad_scalar_default_aborts_build.2.1 SchemaBuilder.NewRootBNode
    "Port" "" "" (some "port") none "abc" (by decide)
  simpa using h
